import Mathlib

/-!
Verification of the `eth-keymanager` CLI (`keymanager.py`).

The program is a thin client over the Ethereum keymanager HTTP API with two
workflows (fee-recipient synchronization and keystore import) sharing one
HTTP request helper.  We embed it shallowly:

* file reads and `json.loads` results are inputs (a keystore file is its raw
  text paired with its parsed JSON value; a fee-recipient file is its parsed
  list of entries);
* the remote server is an input: the list of `validating_pubkey` values the
  node reports from `GET /eth/v1/keystores`, and a function giving the
  `ethaddress` the node reports for `GET /eth/v1/validator/{pubkey}/feerecipient`;
* each workflow returns the trace of HTTP requests it issues, the lines it
  prints to stdout and stderr, and its process exit code.
-/

/-- ASCII lower-casing of one character.  Models Python `str.lower` on the
ASCII strings (hex pubkeys and addresses) this program handles. -/
def lowerChar (c : Char) : Char :=
  if 'A' ≤ c ∧ c ≤ 'Z' then Char.ofNat (c.toNat + 32) else c

/-- Models Python `str.lower` (restricted to ASCII input). -/
def lowerStr (s : String) : String :=
  String.mk (s.data.map lowerChar)

/-- A minimal JSON value, the result of `json.loads` on a keystore file.
Object fields are an association list with distinct keys (a Python dict). -/
inductive Json where
  | null : Json
  | bool (b : Bool) : Json
  | num (n : Int) : Json
  | str (s : String) : Json
  | arr (elems : List Json) : Json
  | obj (fields : List (String × Json)) : Json

/-- Dictionary access `data[key]` on a parsed JSON object. -/
def lookupField : List (String × Json) → String → Option Json
  | [], _ => none
  | (k, v) :: rest, key => if k = key then some v else lookupField rest key

/-- `data[key]` on a `Json` value; `none` when the value is not an object or
lacks the key (in Python: a raised `KeyError`/`TypeError`). -/
def Json.objLookup : Json → String → Option Json
  | .obj fields, key => lookupField fields key
  | _, _ => none

/-- `none` unless the value is a JSON string (in Python, a non-string value
would make `.startswith`/`.lower` raise). -/
def Json.asString : Json → Option String
  | .str s => some s
  | _ => none

/-- JSON string escaping for quote and backslash (the characters that arise
in this program's data). -/
def escapeChar (c : Char) : String :=
  if c = '"' then "\\\"" else if c = '\\' then "\\\\" else String.singleton c

/-- JSON string-body escaping, character by character. -/
def escapeString (s : String) : String :=
  String.join (s.data.map escapeChar)

mutual

/-- Models Python `json.dumps` with its default separators (`", "` and
`": "`) and ASCII, non-control-character string content. -/
def dumps : Json → String
  | .null => "null"
  | .bool true => "true"
  | .bool false => "false"
  | .num n => toString n
  | .str s => "\"" ++ escapeString s ++ "\""
  | .arr elems => "[" ++ dumpsList elems ++ "]"
  | .obj fields => "\x7b" ++ dumpsObj fields ++ "\x7d"

/-- Comma-separated serialization of a JSON array's elements. -/
def dumpsList : List Json → String
  | [] => ""
  | [x] => dumps x
  | x :: y :: rest => dumps x ++ ", " ++ dumpsList (y :: rest)

/-- Comma-separated serialization of a JSON object's fields. -/
def dumpsObj : List (String × Json) → String
  | [] => ""
  | [kv] => "\"" ++ escapeString kv.1 ++ "\": " ++ dumps kv.2
  | kv :: kv2 :: rest =>
      "\"" ++ escapeString kv.1 ++ "\": " ++ dumps kv.2 ++ ", " ++ dumpsObj (kv2 :: rest)

end

/-- The body of a write request, as the structured value the program passes
to `json.dumps` before encoding. -/
inductive ReqBody where
  /-- Body of a fee-recipient write: `json.dumps({"ethaddress": addr})`. -/
  | ethaddress (addr : String) : ReqBody
  /-- Body of a keystore-import write:
  `json.dumps({"keystores": ks, "passwords": pws})`. -/
  | keystores (ks : List String) (pws : List String) : ReqBody
deriving DecidableEq, Repr

/-- One call to the `request` helper: the resource path and the optional
structured body (`none` for a body-less GET). -/
structure ApiRequest where
  resource : String
  body : Option ReqBody
deriving DecidableEq, Repr

/-- `request("/eth/v1/keystores")`. -/
def getKeystoresReq : ApiRequest :=
  ⟨"/eth/v1/keystores", none⟩

/-- `request(f"/eth/v1/validator/{pubkey}/feerecipient")`. -/
def getFeeRecipientReq (pubkey : String) : ApiRequest :=
  ⟨"/eth/v1/validator/" ++ pubkey ++ "/feerecipient", none⟩

/-- The fee-recipient write: same path, body `{"ethaddress": addr}`. -/
def setFeeRecipientReq (pubkey addr : String) : ApiRequest :=
  ⟨"/eth/v1/validator/" ++ pubkey ++ "/feerecipient", some (.ethaddress addr)⟩

/-- The keystore-import write to `/eth/v1/keystores` with body
`{"keystores": [text], "passwords": [passwd]}`. -/
def importKeystoreReq (text passwd : String) : ApiRequest :=
  ⟨"/eth/v1/keystores", some (.keystores [text] [passwd])⟩

/-- A request is a write exactly when it carries a body (the helper POSTs iff
`data` is supplied). -/
def isWrite (r : ApiRequest) : Bool :=
  r.body.isSome

/-- The remote node, as the workflows observe it: the `validating_pubkey`
values in the `data` field of `GET /eth/v1/keystores`, and for each pubkey
the `ethaddress` in the `data` field of
`GET /eth/v1/validator/{pubkey}/feerecipient`. -/
structure Server where
  managed : List String
  feeRecipient : String → String

/-- The managed-validator set
`{validator_data["validating_pubkey"].lower() for ...}`: the lower-cased
pubkeys, de-duplicated (a Python set).  Iteration order of the Python set is
arbitrary; we fix the `dedup` order, which no workflow behavior depends on. -/
def managedSet (srv : Server) : List String :=
  (srv.managed.map lowerStr).dedup

/-- The outcome of one process invocation: the HTTP requests issued in
order, the stdout and stderr lines, and the exit code. -/
structure RunResult where
  requests : List ApiRequest
  stdout : List String
  stderr : List String
  exitCode : Nat
deriving Repr

/-- `thematic_break = "-" * 70`. -/
def thematicBreak : String :=
  String.mk (List.replicate 70 '-')

/-- One entry of the fee-recipient JSON file:
`{"validating_pubkey": ..., "ethaddress": ...}`. -/
structure FeeEntry where
  validating_pubkey : String
  ethaddress : String
deriving DecidableEq, Repr

/-- The per-entry lower-casing applied when the file is loaded. -/
def lowerEntry (d : FeeEntry) : FeeEntry :=
  ⟨lowerStr d.validating_pubkey, lowerStr d.ethaddress⟩

/-- One iteration of the fee-recipient update loop: the requests it issues
and the lines it prints.  `d` is an already lower-cased entry. -/
def feeUpdateStep (srv : Server) (d : FeeEntry) : List ApiRequest × List String :=
  let pubkey := d.validating_pubkey
  let newEthaddress := d.ethaddress
  let oldEthaddress := lowerStr (srv.feeRecipient pubkey)
  if oldEthaddress = newEthaddress then
    ([getFeeRecipientReq pubkey],
     [thematicBreak, "Configuring " ++ pubkey ++ "...",
      "Fee recipient already in sync"])
  else
    ([getFeeRecipientReq pubkey, setFeeRecipientReq pubkey newEthaddress],
     [thematicBreak, "Configuring " ++ pubkey ++ "...",
      "Fee recipient updated. Previously " ++ oldEthaddress ++ ". Now " ++ newEthaddress])

/-- The fee-recipient update loop over all (already validated) entries. -/
def feeUpdateAll (srv : Server) : List FeeEntry → List ApiRequest × List String
  | [] => ([], [])
  | d :: ds =>
      let (reqs, out) := feeUpdateStep srv d
      let (reqsRest, outRest) := feeUpdateAll srv ds
      (reqs ++ reqsRest, out ++ outRest)

/-- The `set-fee-recipients` workflow (`set_fee_recipients` in the source):
lower-case the file's entries, fetch and print the managed set, abort with
exit code 1 at the first entry whose pubkey is unmanaged, otherwise run the
update loop and report success. -/
def set_fee_recipients (rawEntries : List FeeEntry) (srv : Server) : RunResult :=
  let entries := rawEntries.map lowerEntry
  let ms := managedSet srv
  let header := "The node manages the following validators:" :: ms
  match entries.find? (fun d => !(ms.contains d.validating_pubkey)) with
  | some d =>
      { requests := [getKeystoresReq]
      , stdout := header
      , stderr := ["ERROR: Validator " ++ d.validating_pubkey ++
                   " is not managed by the connected node."]
      , exitCode := 1 }
  | none =>
      let (reqs, out) := feeUpdateAll srv entries
      { requests := getKeystoresReq :: reqs
      , stdout := header ++ out ++
          [thematicBreak, "Success. All fee recipients synchronized."]
      , stderr := []
      , exitCode := 0 }

/-- A local keystore file: its raw text as read from disk and the result of
`json.loads` on that text. -/
structure KeystoreFile where
  text : String
  data : Json

/-- `data["pubkey"]` of a keystore file, when present and a string. -/
def filePubkey? (f : KeystoreFile) : Option String :=
  (f.data.objLookup "pubkey").bind Json.asString

/-- `pubkey.startswith("0x")`. -/
def startsWith0x (s : String) : Bool :=
  match s.data with
  | '0' :: 'x' :: _ => true
  | _ => false

/-- `pubkey if pubkey.startswith("0x") else "0x" + pubkey`. -/
def normalizePubkey (pubkey : String) : String :=
  if startsWith0x pubkey then pubkey else "0x" ++ pubkey

/-- The extracted pubkey of a file whose `pubkey` field exists (defaulted,
only ever used under that hypothesis). -/
def extractedPubkey (f : KeystoreFile) : String :=
  (filePubkey? f).getD ""

/-- The skip test of the import loop: is the file's normalized pubkey —
verbatim, not lower-cased — in the lower-cased managed set? -/
def fileManaged (ms : List String) (f : KeystoreFile) : Bool :=
  ms.contains (normalizePubkey (extractedPubkey f))

/-- The per-file loop of the import workflow: requests issued, stdout lines,
and whether the loop ran to completion (`false` when `data["pubkey"]`
raises, which crashes the Python process after the break line prints). -/
def importLoop (passwd : String) (ms : List String) :
    List KeystoreFile → List ApiRequest × List String × Bool
  | [] => ([], [], true)
  | f :: fs =>
      match filePubkey? f with
      | none => ([], [thematicBreak], false)
      | some pk0 =>
          let pubkey := normalizePubkey pk0
          let (reqsRest, outRest, ok) := importLoop passwd ms fs
          if ms.contains pubkey then
            (reqsRest,
             [thematicBreak, "Importing " ++ pubkey ++ "...",
              "The node already manages this validating pubkey. Skipping this one."]
               ++ outRest,
             ok)
          else
            (importKeystoreReq f.text passwd :: reqsRest,
             [thematicBreak, "Importing " ++ pubkey ++ "...",
              "Keystore imported"] ++ outRest,
             ok)

/-- The `import-keystores` workflow (`import_keystores` in the source):
fetch and print the managed set, then for each file in order skip it when
its normalized pubkey is already managed and otherwise POST the raw file
text with the shared password.  An uncaught exception in the loop makes the
interpreter exit with code 1 (its traceback on stderr is not modelled). -/
def import_keystores (passwd : String) (files : List KeystoreFile) (srv : Server) :
    RunResult :=
  let ms := managedSet srv
  let (reqs, out, ok) := importLoop passwd ms files
  { requests := getKeystoresReq :: reqs
  , stdout := ("The node manages the following validators:" :: ms) ++ out ++
      (if ok then [thematicBreak, "Success. All keystores imported."] else [])
  , stderr := []
  , exitCode := if ok then 0 else 1 }

/-- Python truthiness of the `bytes | None` body parameter: `None` and the
empty byte string are falsy (`if data:` in the helper). -/
def bodyTruthy : Option String → Bool
  | none => false
  | some s => !(s = "")

/-- The HTTP request the `request` helper builds for `urlopen`: the URL
`f"{args.host}{resource}"`, the method `urllib` derives (POST exactly when
`data is not None`, GET otherwise), and the headers added by the helper. -/
structure BuiltRequest where
  url : String
  method : String
  headers : List (String × String)
deriving DecidableEq, Repr

/-- What the helper returns to its caller: either the decoded response text
as-is, or the result of `json.loads` on it (parsing itself is the json
library's; the constructor records which one the caller gets). -/
inductive RequestResult where
  | rawText (content : String) : RequestResult
  | parsedJson (content : String) : RequestResult
deriving DecidableEq, Repr

/-- The request built by the helper `request(resource, data)` under
configuration `host`/`auth`. -/
def buildRequest (host auth resource : String) (data : Option String) : BuiltRequest :=
  { url := host ++ resource
  , method := if data.isSome then "POST" else "GET"
  , headers :=
      ("authorization", "Bearer " ++ auth) ::
      (if bodyTruthy data then
        [("accept", "*/*"), ("content-type", "application/json")]
      else
        [("accept", "application/json")]) }

/-- The helper's return value given the decoded response text: raw text when
`data` is truthy, `json.loads` of it otherwise. -/
def requestReturn (data : Option String) (contentStr : String) : RequestResult :=
  if bodyTruthy data then .rawText contentStr else .parsedJson contentStr

/-- Python truthiness of an optional string argument value (`not args.auth`
is true for both `None` and the empty string). -/
def truthyOpt : Option String → Bool
  | none => false
  | some s => !(s = "")

/-- `argparse` default resolution: the flag value when given, else the value
of `os.environ.get(...)` (which is `None` when the variable is unset). -/
def effectiveArg (cli envVar : Option String) : Option String :=
  match cli with
  | some v => some v
  | none => envVar

/-- The result of `parser.error(...)`: argparse prints the usage line and
the message to stderr and exits with code 2, before any request is made. -/
def usageErrorResult : RunResult :=
  { requests := []
  , stdout := []
  , stderr := ["usage: keymanager.py [-h] [--host HOST] [--auth AUTH] \x7bset-fee-recipients,import-keystores\x7d ...",
      "keymanager.py: error: Must provide keymanager API host and auth via command line options or environment variables (ETH_KEYMANAGER_API_HOST and ETH_KEYMANAGER_API_AUTH)"]
  , exitCode := 2 }

/-- A parsed subcommand with its file inputs. -/
inductive Command where
  | setFeeRecipientsCmd (entries : List FeeEntry) : Command
  | importKeystoresCmd (passwd : String) (files : List KeystoreFile) : Command

/-- `args.func(args)`: dispatch to the chosen subcommand handler. -/
def runCommand (srv : Server) : Command → RunResult
  | .setFeeRecipientsCmd entries => set_fee_recipients entries srv
  | .importKeystoresCmd passwd files => import_keystores passwd files srv

/-- The program's entry sequence after `parse_args`: resolve `--host` and
`--auth` against their environment variables, run the
`if not args.auth or not args.host: parser.error(...)` check, and only then
dispatch to the subcommand. -/
def mainEntry (cliHost envHost cliAuth envAuth : Option String)
    (cmd : Command) (srv : Server) : RunResult :=
  let host := effectiveArg cliHost envHost
  let auth := effectiveArg cliAuth envAuth
  if !(truthyOpt auth) || !(truthyOpt host) then usageErrorResult
  else runCommand srv cmd

/-! ### Helper lemmas about the two workflow loops -/

theorem length_filter_add_length_filter_not (p : α → Bool) (l : List α) :
    (l.filter p).length + (l.filter (fun a => !(p a))).length = l.length := by
  induction l with
  | nil => rfl
  | cons a l ih =>
      by_cases h : p a = true <;>
        simp [List.filter_cons, h, ← ih] <;> omega

theorem feeUpdateAll_requests_filter (srv : Server) (es : List FeeEntry) :
    ((feeUpdateAll srv es).1).filter isWrite =
      (es.filter
        (fun d => !(lowerStr (srv.feeRecipient d.validating_pubkey) == d.ethaddress))).map
        (fun d => setFeeRecipientReq d.validating_pubkey d.ethaddress) := by
  induction es with
  | nil => rfl
  | cons d ds ih =>
      by_cases h : lowerStr (srv.feeRecipient d.validating_pubkey) = d.ethaddress <;>
        simp [feeUpdateAll, feeUpdateStep, h, List.filter_cons, ih,
          isWrite, getFeeRecipientReq, setFeeRecipientReq]

theorem insync_mem_feeUpdateAll_out (srv : Server) (es : List FeeEntry) (d : FeeEntry)
    (hmem : d ∈ es)
    (hsync : lowerStr (srv.feeRecipient d.validating_pubkey) = d.ethaddress) :
    "Fee recipient already in sync" ∈ (feeUpdateAll srv es).2 := by
  induction es with
  | nil => cases hmem
  | cons e ds ih =>
      rcases List.mem_cons.mp hmem with h | h
      · subst h
        simp [feeUpdateAll, feeUpdateStep, hsync]
      · by_cases he : lowerStr (srv.feeRecipient e.validating_pubkey) = e.ethaddress <;>
          simp [feeUpdateAll, feeUpdateStep, he, ih h]

theorem importLoop_requests_of_pubkeys (passwd : String) (ms : List String)
    (fs : List KeystoreFile) (h : ∀ f ∈ fs, (filePubkey? f).isSome = true) :
    (importLoop passwd ms fs).1 =
      (fs.filter (fun f => !(fileManaged ms f))).map
        (fun f => importKeystoreReq f.text passwd) := by
  induction fs with
  | nil => rfl
  | cons f fs ih =>
      rcases Option.isSome_iff_exists.mp (h f (List.mem_cons_self f fs)) with ⟨pk0, hpk⟩
      have hman : fileManaged ms f = ms.contains (normalizePubkey pk0) := by
        simp [fileManaged, extractedPubkey, hpk]
      have ihr := ih (fun g hg => h g (List.mem_cons_of_mem f hg))
      by_cases hc : normalizePubkey pk0 ∈ ms <;>
        simp [importLoop, hpk, hc, List.filter_cons, hman, ihr]

theorem importLoop_ok_of_pubkeys (passwd : String) (ms : List String)
    (fs : List KeystoreFile) (h : ∀ f ∈ fs, (filePubkey? f).isSome = true) :
    (importLoop passwd ms fs).2.2 = true := by
  induction fs with
  | nil => rfl
  | cons f fs ih =>
      rcases Option.isSome_iff_exists.mp (h f (List.mem_cons_self f fs)) with ⟨pk0, hpk⟩
      have ihr := ih (fun g hg => h g (List.mem_cons_of_mem f hg))
      by_cases hc : normalizePubkey pk0 ∈ ms <;>
        simp [importLoop, hpk, hc, ihr]

theorem skip_mem_importLoop_out (passwd : String) (ms : List String)
    (fs : List KeystoreFile) (f : KeystoreFile) (hmem : f ∈ fs)
    (hall : ∀ g ∈ fs, (filePubkey? g).isSome = true)
    (hman : fileManaged ms f = true) :
    "The node already manages this validating pubkey. Skipping this one."
      ∈ (importLoop passwd ms fs).2.1 := by
  induction fs with
  | nil => cases hmem
  | cons g fs ih =>
      have hallRest : ∀ g2 ∈ fs, (filePubkey? g2).isSome = true :=
        fun g2 hg2 => hall g2 (List.mem_cons_of_mem g hg2)
      rcases List.mem_cons.mp hmem with h | h
      · subst h
        rcases Option.isSome_iff_exists.mp (hall f (List.mem_cons_self f fs)) with ⟨pk0, hpk0⟩
        have hc : normalizePubkey pk0 ∈ ms := by
          have heq : fileManaged ms f = ms.contains (normalizePubkey pk0) := by
            simp [fileManaged, extractedPubkey, hpk0]
          have : ms.contains (normalizePubkey pk0) = true := heq ▸ hman
          simpa using this
        simp [importLoop, hpk0, hc]
      · rcases Option.isSome_iff_exists.mp (hall g (List.mem_cons_self g fs)) with ⟨pk0, hg⟩
        by_cases hc : normalizePubkey pk0 ∈ ms <;>
          simp [importLoop, hg, hc, ih h hallRest]

/-! ### Claim theorems: fee-recipient synchronization -/

/-- C2: if any entry of the fee-recipient file has a `validating_pubkey`
absent from the managed-validator set, the workflow issues no write request
for any entry (its only request is the initial managed-set GET), writes an
error naming an offending pubkey to stderr, and returns exit code 1. -/
theorem feeSync_unmanaged_pubkey_aborts_without_writes
    (entries : List FeeEntry) (srv : Server)
    (h : ∃ d ∈ entries.map lowerEntry, d.validating_pubkey ∉ managedSet srv) :
    (set_fee_recipients entries srv).requests = [getKeystoresReq] ∧
    (set_fee_recipients entries srv).requests.filter isWrite = [] ∧
    (set_fee_recipients entries srv).exitCode = 1 ∧
    ∃ d ∈ entries.map lowerEntry, d.validating_pubkey ∉ managedSet srv ∧
      (set_fee_recipients entries srv).stderr =
        ["ERROR: Validator " ++ d.validating_pubkey ++
         " is not managed by the connected node."] := by
  have hsome : ((entries.map lowerEntry).find?
      (fun d => !((managedSet srv).contains d.validating_pubkey))).isSome := by
    rw [List.find?_isSome]
    rcases h with ⟨d, hd, hnot⟩
    exact ⟨d, hd, by simpa using hnot⟩
  rcases Option.isSome_iff_exists.mp hsome with ⟨d, hfind⟩
  have hdmem := List.mem_of_find?_eq_some hfind
  have hdnot : d.validating_pubkey ∉ managedSet srv := by
    simpa using List.find?_some hfind
  have hres : set_fee_recipients entries srv =
      { requests := [getKeystoresReq]
      , stdout := "The node manages the following validators:" :: managedSet srv
      , stderr := ["ERROR: Validator " ++ d.validating_pubkey ++
                   " is not managed by the connected node."]
      , exitCode := 1 } := by
    simp only [set_fee_recipients]
    rw [hfind]
  exact ⟨by rw [hres], by rw [hres]; rfl, by rw [hres], d, hdmem, hdnot, by rw [hres]⟩

/-- Concrete instance of scenario B for the theorem of C2: one entry for
`0xAA`, empty managed set. -/
theorem feeSync_unmanaged_pubkey_aborts_without_writes_witness :
    (∃ d ∈ [(⟨"0xAA", "0xBB"⟩ : FeeEntry)].map lowerEntry,
        d.validating_pubkey ∉ managedSet ⟨[], fun _ => "0xCC"⟩) ∧
    ((set_fee_recipients [(⟨"0xAA", "0xBB"⟩ : FeeEntry)] ⟨[], fun _ => "0xCC"⟩).requests
        = [getKeystoresReq] ∧
      (set_fee_recipients [(⟨"0xAA", "0xBB"⟩ : FeeEntry)]
          ⟨[], fun _ => "0xCC"⟩).requests.filter isWrite = [] ∧
      (set_fee_recipients [(⟨"0xAA", "0xBB"⟩ : FeeEntry)]
          ⟨[], fun _ => "0xCC"⟩).exitCode = 1 ∧
      ∃ d ∈ [(⟨"0xAA", "0xBB"⟩ : FeeEntry)].map lowerEntry,
        d.validating_pubkey ∉ managedSet ⟨[], fun _ => "0xCC"⟩ ∧
        (set_fee_recipients [(⟨"0xAA", "0xBB"⟩ : FeeEntry)]
            ⟨[], fun _ => "0xCC"⟩).stderr =
          ["ERROR: Validator " ++ d.validating_pubkey ++
           " is not managed by the connected node."]) :=
  ⟨⟨⟨"0xaa", "0xbb"⟩, by decide, by decide⟩,
   feeSync_unmanaged_pubkey_aborts_without_writes [⟨"0xAA", "0xBB"⟩]
     ⟨[], fun _ => "0xCC"⟩ ⟨⟨"0xaa", "0xbb"⟩, by decide, by decide⟩⟩

/-- C3: when every entry's pubkey is managed, the write requests issued by
the synchronization run are exactly those for entries whose current remote
address (lower-cased) differs from the desired one; each in-sync entry is
reported with the "in sync" line, and when every entry is in sync the run
issues zero write requests. -/
theorem feeSync_in_sync_entries_issue_no_writes
    (entries : List FeeEntry) (srv : Server)
    (hval : ∀ d ∈ entries.map lowerEntry, d.validating_pubkey ∈ managedSet srv) :
    (set_fee_recipients entries srv).requests.filter isWrite =
      ((entries.map lowerEntry).filter
        (fun d => !(lowerStr (srv.feeRecipient d.validating_pubkey) == d.ethaddress))).map
        (fun d => setFeeRecipientReq d.validating_pubkey d.ethaddress) ∧
    (set_fee_recipients entries srv).exitCode = 0 ∧
    (∀ d ∈ entries.map lowerEntry,
        lowerStr (srv.feeRecipient d.validating_pubkey) = d.ethaddress →
        "Fee recipient already in sync" ∈ (set_fee_recipients entries srv).stdout) ∧
    ((∀ d ∈ entries.map lowerEntry,
        lowerStr (srv.feeRecipient d.validating_pubkey) = d.ethaddress) →
      (set_fee_recipients entries srv).requests.filter isWrite = []) := by
  have hnone : (entries.map lowerEntry).find?
      (fun d => !((managedSet srv).contains d.validating_pubkey)) = none := by
    rw [List.find?_eq_none]
    intro d hd
    simp [hval d hd]
  have hres : set_fee_recipients entries srv =
      { requests := getKeystoresReq :: (feeUpdateAll srv (entries.map lowerEntry)).1
      , stdout := ("The node manages the following validators:" :: managedSet srv) ++
          (feeUpdateAll srv (entries.map lowerEntry)).2 ++
          [thematicBreak, "Success. All fee recipients synchronized."]
      , stderr := []
      , exitCode := 0 } := by
    simp only [set_fee_recipients]
    rw [hnone]
  have hfilter : (set_fee_recipients entries srv).requests.filter isWrite =
      ((entries.map lowerEntry).filter
        (fun d => !(lowerStr (srv.feeRecipient d.validating_pubkey) == d.ethaddress))).map
        (fun d => setFeeRecipientReq d.validating_pubkey d.ethaddress) := by
    rw [hres]
    show List.filter isWrite (getKeystoresReq :: (feeUpdateAll srv (entries.map lowerEntry)).1) = _
    rw [List.filter_cons_of_neg (by decide)]
    exact feeUpdateAll_requests_filter srv (entries.map lowerEntry)
  refine ⟨hfilter, by rw [hres], ?_, ?_⟩
  · intro d hd hsync
    rw [hres]
    have hmem := insync_mem_feeUpdateAll_out srv (entries.map lowerEntry) d hd hsync
    simp only [List.append_assoc, List.mem_append, List.mem_cons]
    tauto
  · intro hall
    rw [hfilter]
    have hnil : (entries.map lowerEntry).filter
        (fun d => !(lowerStr (srv.feeRecipient d.validating_pubkey) == d.ethaddress)) = [] := by
      rw [List.filter_eq_nil_iff]
      intro d hd
      simp [hall d hd]
    rw [hnil]
    rfl

/-- Concrete instance for the theorem of C3: one managed entry whose remote
address already matches up to case; the run issues zero writes. -/
theorem feeSync_in_sync_entries_issue_no_writes_witness :
    (∀ d ∈ [(⟨"0xAA", "0xBB"⟩ : FeeEntry)].map lowerEntry,
        d.validating_pubkey ∈ managedSet ⟨["0xAa"], fun _ => "0xBB"⟩) ∧
    ((set_fee_recipients [(⟨"0xAA", "0xBB"⟩ : FeeEntry)]
          ⟨["0xAa"], fun _ => "0xBB"⟩).requests.filter isWrite =
        (([(⟨"0xAA", "0xBB"⟩ : FeeEntry)].map lowerEntry).filter
          (fun d => !(lowerStr ((fun _ => "0xBB") d.validating_pubkey) == d.ethaddress))).map
          (fun d => setFeeRecipientReq d.validating_pubkey d.ethaddress) ∧
      (set_fee_recipients [(⟨"0xAA", "0xBB"⟩ : FeeEntry)]
          ⟨["0xAa"], fun _ => "0xBB"⟩).exitCode = 0 ∧
      (∀ d ∈ [(⟨"0xAA", "0xBB"⟩ : FeeEntry)].map lowerEntry,
          lowerStr ((fun _ => "0xBB") d.validating_pubkey) = d.ethaddress →
          "Fee recipient already in sync" ∈
            (set_fee_recipients [(⟨"0xAA", "0xBB"⟩ : FeeEntry)]
              ⟨["0xAa"], fun _ => "0xBB"⟩).stdout) ∧
      ((∀ d ∈ [(⟨"0xAA", "0xBB"⟩ : FeeEntry)].map lowerEntry,
          lowerStr ((fun _ => "0xBB") d.validating_pubkey) = d.ethaddress) →
        (set_fee_recipients [(⟨"0xAA", "0xBB"⟩ : FeeEntry)]
            ⟨["0xAa"], fun _ => "0xBB"⟩).requests.filter isWrite = [])) :=
  ⟨by decide,
   feeSync_in_sync_entries_issue_no_writes [⟨"0xAA", "0xBB"⟩]
     ⟨["0xAa"], fun _ => "0xBB"⟩ (by decide)⟩

/-- C10: running the fee-recipient workflow on an empty JSON array issues
exactly the one managed-set GET and nothing else, prints the success
summary, and exits with code 0 — for every server, the empty one included. -/
theorem feeSync_empty_file_succeeds (srv : Server) :
    (set_fee_recipients [] srv).requests = [getKeystoresReq] ∧
    (set_fee_recipients [] srv).exitCode = 0 ∧
    "Success. All fee recipients synchronized." ∈ (set_fee_recipients [] srv).stdout := by
  refine ⟨?_, ?_, ?_⟩ <;>
    simp [set_fee_recipients, feeUpdateAll, List.mem_append]

/-! ### Claim theorems: keystore import -/

/-- C9: the managed set is computed once, before the file loop, and never
updated: the full request trace is the single GET of `/eth/v1/keystores`
followed by one write per file whose normalized pubkey is absent from that
initially fetched set — so duplicated pubkeys within one invocation each
get their own write request. -/
theorem import_managed_set_fetched_once_trace (passwd : String)
    (files : List KeystoreFile) (srv : Server)
    (h : ∀ f ∈ files, (filePubkey? f).isSome = true) :
    (import_keystores passwd files srv).requests =
      getKeystoresReq ::
        (files.filter (fun f => !(fileManaged (managedSet srv) f))).map
          (fun f => importKeystoreReq f.text passwd) ∧
    (import_keystores passwd files srv).requests.count getKeystoresReq = 1 := by
  have hreq : (import_keystores passwd files srv).requests =
      getKeystoresReq :: (importLoop passwd (managedSet srv) files).1 := rfl
  have htrace : (import_keystores passwd files srv).requests =
      getKeystoresReq ::
        (files.filter (fun f => !(fileManaged (managedSet srv) f))).map
          (fun f => importKeystoreReq f.text passwd) := by
    rw [hreq, importLoop_requests_of_pubkeys passwd (managedSet srv) files h]
  refine ⟨htrace, ?_⟩
  have hnotmem : getKeystoresReq ∉
      (files.filter (fun f => !(fileManaged (managedSet srv) f))).map
        (fun f => importKeystoreReq f.text passwd) := by
    intro hmem
    rcases List.mem_map.mp hmem with ⟨f, _, habs⟩
    simp [importKeystoreReq, getKeystoresReq] at habs
  rw [htrace, List.count_cons_self, List.count_eq_zero.mpr hnotmem]

/-- Witness for the theorem of C9 at two files with the same unmanaged
pubkey: both get their own write request (later duplicates not skipped). -/
theorem import_managed_set_fetched_once_trace_witness :
    (∀ f ∈ [(⟨"t1", Json.obj [("pubkey", Json.str "0xdd")]⟩ : KeystoreFile),
            (⟨"t2", Json.obj [("pubkey", Json.str "0xdd")]⟩ : KeystoreFile)],
        (filePubkey? f).isSome = true) ∧
    ((import_keystores "pw"
        [(⟨"t1", Json.obj [("pubkey", Json.str "0xdd")]⟩ : KeystoreFile),
         (⟨"t2", Json.obj [("pubkey", Json.str "0xdd")]⟩ : KeystoreFile)]
        ⟨[], fun _ => ""⟩).requests =
      getKeystoresReq ::
        (([(⟨"t1", Json.obj [("pubkey", Json.str "0xdd")]⟩ : KeystoreFile),
           (⟨"t2", Json.obj [("pubkey", Json.str "0xdd")]⟩ : KeystoreFile)].filter
          (fun f => !(fileManaged (managedSet ⟨[], fun _ => ""⟩) f))).map
          (fun f => importKeystoreReq f.text "pw")) ∧
      (import_keystores "pw"
        [(⟨"t1", Json.obj [("pubkey", Json.str "0xdd")]⟩ : KeystoreFile),
         (⟨"t2", Json.obj [("pubkey", Json.str "0xdd")]⟩ : KeystoreFile)]
        ⟨[], fun _ => ""⟩).requests.count getKeystoresReq = 1) :=
  ⟨by decide,
   import_managed_set_fetched_once_trace "pw"
     [⟨"t1", Json.obj [("pubkey", Json.str "0xdd")]⟩,
      ⟨"t2", Json.obj [("pubkey", Json.str "0xdd")]⟩]
     ⟨[], fun _ => ""⟩ (by decide)⟩

/-- C5: with N keystore files of which M have already-managed pubkeys, the
keystore-import workflow issues exactly N − M write requests; the number of
writes is invariant under any permutation of the file list. -/
theorem import_write_count_n_minus_m (passwd : String)
    (files : List KeystoreFile) (srv : Server)
    (h : ∀ f ∈ files, (filePubkey? f).isSome = true) :
    ((import_keystores passwd files srv).requests.filter isWrite).length =
      files.length -
        (files.filter (fun f => fileManaged (managedSet srv) f)).length ∧
    ∀ files2 : List KeystoreFile, files2.Perm files →
      ((import_keystores passwd files2 srv).requests.filter isWrite).length =
      ((import_keystores passwd files srv).requests.filter isWrite).length := by
  have key : ∀ (gs : List KeystoreFile), (∀ f ∈ gs, (filePubkey? f).isSome = true) →
      ((import_keystores passwd gs srv).requests.filter isWrite).length =
      (gs.filter (fun f => !(fileManaged (managedSet srv) f))).length := by
    intro gs hgs
    have hreq : (import_keystores passwd gs srv).requests =
        getKeystoresReq :: (importLoop passwd (managedSet srv) gs).1 := rfl
    rw [hreq, List.filter_cons_of_neg (by decide),
      importLoop_requests_of_pubkeys passwd (managedSet srv) gs hgs,
      List.filter_map]
    have hall : ((gs.filter (fun f => !(fileManaged (managedSet srv) f))).filter
        (isWrite ∘ fun f => importKeystoreReq f.text passwd)) =
        gs.filter (fun f => !(fileManaged (managedSet srv) f)) := by
      rw [List.filter_eq_self]
      intro f _
      rfl
    rw [hall, List.length_map]
  constructor
  · rw [key files h]
    have hsum := length_filter_add_length_filter_not
      (fun f => fileManaged (managedSet srv) f) files
    omega
  · intro files2 hperm
    have h2 : ∀ f ∈ files2, (filePubkey? f).isSome = true := by
      intro f hf
      exact h f (hperm.mem_iff.mp hf)
    rw [key files h, key files2 h2]
    exact (hperm.filter (fun f => !(fileManaged (managedSet srv) f))).length_eq

/-- Witness for the theorem of C5: scenario D, two files, the first already
managed, the second not; exactly one write request (2 − 1). -/
theorem import_write_count_n_minus_m_witness :
    (∀ f ∈ [(⟨"t1", Json.obj [("pubkey", Json.str "0xaa")]⟩ : KeystoreFile),
            (⟨"t2", Json.obj [("pubkey", Json.str "0xbb")]⟩ : KeystoreFile)],
        (filePubkey? f).isSome = true) ∧
    (((import_keystores "pw"
        [(⟨"t1", Json.obj [("pubkey", Json.str "0xaa")]⟩ : KeystoreFile),
         (⟨"t2", Json.obj [("pubkey", Json.str "0xbb")]⟩ : KeystoreFile)]
        ⟨["0xAA"], fun _ => ""⟩).requests.filter isWrite).length =
      [(⟨"t1", Json.obj [("pubkey", Json.str "0xaa")]⟩ : KeystoreFile),
       (⟨"t2", Json.obj [("pubkey", Json.str "0xbb")]⟩ : KeystoreFile)].length -
        ([(⟨"t1", Json.obj [("pubkey", Json.str "0xaa")]⟩ : KeystoreFile),
          (⟨"t2", Json.obj [("pubkey", Json.str "0xbb")]⟩ : KeystoreFile)].filter
          (fun f => fileManaged (managedSet ⟨["0xAA"], fun _ => ""⟩) f)).length ∧
      ∀ files2 : List KeystoreFile,
        files2.Perm [(⟨"t1", Json.obj [("pubkey", Json.str "0xaa")]⟩ : KeystoreFile),
                     (⟨"t2", Json.obj [("pubkey", Json.str "0xbb")]⟩ : KeystoreFile)] →
        ((import_keystores "pw" files2 ⟨["0xAA"], fun _ => ""⟩).requests.filter
            isWrite).length =
        ((import_keystores "pw"
            [(⟨"t1", Json.obj [("pubkey", Json.str "0xaa")]⟩ : KeystoreFile),
             (⟨"t2", Json.obj [("pubkey", Json.str "0xbb")]⟩ : KeystoreFile)]
            ⟨["0xAA"], fun _ => ""⟩).requests.filter isWrite).length) :=
  ⟨by decide,
   import_write_count_n_minus_m "pw"
     [⟨"t1", Json.obj [("pubkey", Json.str "0xaa")]⟩,
      ⟨"t2", Json.obj [("pubkey", Json.str "0xbb")]⟩]
     ⟨["0xAA"], fun _ => ""⟩ (by decide)⟩

/-- C4: every imported file (pubkey not already managed) produces a write to
`/eth/v1/keystores` whose body's `keystores` field is the one-element list
holding the raw original file text, and whose `passwords` field is the
one-element list holding the command-line password. -/
theorem import_write_body_raw_text_and_password (passwd : String)
    (files : List KeystoreFile) (srv : Server)
    (h : ∀ f ∈ files, (filePubkey? f).isSome = true) :
    ∀ f ∈ files, fileManaged (managedSet srv) f = false →
      ({ resource := "/eth/v1/keystores"
       , body := some (ReqBody.keystores [f.text] [passwd]) } : ApiRequest)
        ∈ (import_keystores passwd files srv).requests := by
  intro f hf hnm
  have hreq : (import_keystores passwd files srv).requests =
      getKeystoresReq :: (importLoop passwd (managedSet srv) files).1 := rfl
  rw [hreq, importLoop_requests_of_pubkeys passwd (managedSet srv) files h]
  refine List.mem_cons_of_mem _ (List.mem_map.mpr ⟨f, ?_, rfl⟩)
  rw [List.mem_filter]
  exact ⟨hf, by simp [hnm]⟩

/-- Witness for the theorem of C4 at a file whose raw text differs from the
re-serialization of its parsed object (extra spaces), showing the body
forwards the original text. -/
theorem import_write_body_raw_text_and_password_witness :
    (∀ f ∈ [(⟨" \x7b \"pubkey\" : \"0xcc\" \x7d ",
              Json.obj [("pubkey", Json.str "0xcc")]⟩ : KeystoreFile)],
        (filePubkey? f).isSome = true) ∧
    dumps (Json.obj [("pubkey", Json.str "0xcc")]) ≠ " \x7b \"pubkey\" : \"0xcc\" \x7d " ∧
    ({ resource := "/eth/v1/keystores"
     , body := some (ReqBody.keystores [" \x7b \"pubkey\" : \"0xcc\" \x7d "] ["pw"]) } :
        ApiRequest) ∈
      (import_keystores "pw"
        [(⟨" \x7b \"pubkey\" : \"0xcc\" \x7d ",
           Json.obj [("pubkey", Json.str "0xcc")]⟩ : KeystoreFile)]
        ⟨[], fun _ => ""⟩).requests :=
  ⟨by decide, by decide,
   import_write_body_raw_text_and_password "pw"
     [⟨" \x7b \"pubkey\" : \"0xcc\" \x7d ", Json.obj [("pubkey", Json.str "0xcc")]⟩]
     ⟨[], fun _ => ""⟩ (by decide)
     ⟨" \x7b \"pubkey\" : \"0xcc\" \x7d ", Json.obj [("pubkey", Json.str "0xcc")]⟩
     (List.mem_singleton.mpr rfl) (by decide)⟩

/-- C6: a file whose normalized pubkey is already managed is skipped: the
skip notice is printed, the run's write requests are exactly those of the
same run without that file (so the remaining files still proceed), and the
whole invocation still exits successfully with code 0. -/
theorem import_managed_file_skipped_not_error (passwd : String)
    (pre post : List KeystoreFile) (f : KeystoreFile) (srv : Server)
    (h : ∀ g ∈ pre ++ f :: post, (filePubkey? g).isSome = true)
    (hman : fileManaged (managedSet srv) f = true) :
    (import_keystores passwd (pre ++ f :: post) srv).requests.filter isWrite =
      (import_keystores passwd (pre ++ post) srv).requests.filter isWrite ∧
    "The node already manages this validating pubkey. Skipping this one."
      ∈ (import_keystores passwd (pre ++ f :: post) srv).stdout ∧
    (import_keystores passwd (pre ++ f :: post) srv).exitCode = 0 := by
  have h2 : ∀ g ∈ pre ++ post, (filePubkey? g).isSome = true := by
    intro g hg
    rcases List.mem_append.mp hg with hg | hg
    · exact h g (List.mem_append_left _ hg)
    · exact h g (List.mem_append_right _ (List.mem_cons_of_mem f hg))
  refine ⟨?_, ?_, ?_⟩
  · have hfiles : (pre ++ f :: post).filter
        (fun g => !(fileManaged (managedSet srv) g)) =
        (pre ++ post).filter (fun g => !(fileManaged (managedSet srv) g)) := by
      simp [List.filter_append, List.filter_cons, hman]
    have ea : (import_keystores passwd (pre ++ f :: post) srv).requests =
        getKeystoresReq :: (importLoop passwd (managedSet srv) (pre ++ f :: post)).1 := rfl
    have eb : (import_keystores passwd (pre ++ post) srv).requests =
        getKeystoresReq :: (importLoop passwd (managedSet srv) (pre ++ post)).1 := rfl
    rw [ea, eb, importLoop_requests_of_pubkeys passwd (managedSet srv) _ h,
      importLoop_requests_of_pubkeys passwd (managedSet srv) _ h2, hfiles]
  · have hmem := skip_mem_importLoop_out passwd (managedSet srv) (pre ++ f :: post) f
      (List.mem_append_right _ (List.mem_cons_self f post)) h hman
    have eo : (import_keystores passwd (pre ++ f :: post) srv).stdout =
        ("The node manages the following validators:" :: managedSet srv) ++
          (importLoop passwd (managedSet srv) (pre ++ f :: post)).2.1 ++
          (if (importLoop passwd (managedSet srv) (pre ++ f :: post)).2.2 then
            [thematicBreak, "Success. All keystores imported."] else []) := rfl
    rw [eo]
    simp only [List.append_assoc, List.mem_append]
    tauto
  · have ec : (import_keystores passwd (pre ++ f :: post) srv).exitCode =
        (if (importLoop passwd (managedSet srv) (pre ++ f :: post)).2.2 then 0 else 1) := rfl
    rw [ec, importLoop_ok_of_pubkeys passwd (managedSet srv) _ h]
    rfl

/-- Witness for the theorem of C6: scenario C, a single file with pubkey
`abc123` (no `0x` prefix) against managed set holding `0xabc123`: skip
message, write requests equal to those of the run without the file (none),
exit code 0. -/
theorem import_managed_file_skipped_not_error_witness :
    (∀ g ∈ ([] : List KeystoreFile) ++
        (⟨"tc", Json.obj [("pubkey", Json.str "abc123")]⟩ : KeystoreFile) ::
          ([] : List KeystoreFile),
        (filePubkey? g).isSome = true) ∧
    fileManaged (managedSet ⟨["0xabc123"], fun _ => ""⟩)
      ⟨"tc", Json.obj [("pubkey", Json.str "abc123")]⟩ = true ∧
    ((import_keystores "pw"
        (([] : List KeystoreFile) ++
          (⟨"tc", Json.obj [("pubkey", Json.str "abc123")]⟩ : KeystoreFile) ::
            ([] : List KeystoreFile))
        ⟨["0xabc123"], fun _ => ""⟩).requests.filter isWrite =
      (import_keystores "pw" (([] : List KeystoreFile) ++ ([] : List KeystoreFile))
        ⟨["0xabc123"], fun _ => ""⟩).requests.filter isWrite ∧
      "The node already manages this validating pubkey. Skipping this one."
        ∈ (import_keystores "pw"
            (([] : List KeystoreFile) ++
              (⟨"tc", Json.obj [("pubkey", Json.str "abc123")]⟩ : KeystoreFile) ::
                ([] : List KeystoreFile))
            ⟨["0xabc123"], fun _ => ""⟩).stdout ∧
      (import_keystores "pw"
          (([] : List KeystoreFile) ++
            (⟨"tc", Json.obj [("pubkey", Json.str "abc123")]⟩ : KeystoreFile) ::
              ([] : List KeystoreFile))
          ⟨["0xabc123"], fun _ => ""⟩).exitCode = 0) :=
  ⟨by decide, by decide,
   import_managed_file_skipped_not_error "pw" [] []
     ⟨"tc", Json.obj [("pubkey", Json.str "abc123")]⟩
     ⟨["0xabc123"], fun _ => ""⟩ (by decide) (by decide)⟩

/-- C1 counterexample: a keystore file whose pubkey `0xABC` differs only in
letter case from the managed entry `0xabc` is NOT treated as already
managed — the import loop lower-cases the managed set but compares the
file's pubkey verbatim, so a write request IS issued. -/
theorem import_case_insensitive_skip_counterexample :
    lowerStr (normalizePubkey (extractedPubkey
        ⟨"\x7b\"pubkey\": \"0xABC\"\x7d", Json.obj [("pubkey", Json.str "0xABC")]⟩))
      ∈ managedSet ⟨["0xabc"], fun _ => ""⟩ ∧
    (import_keystores "password"
        [⟨"\x7b\"pubkey\": \"0xABC\"\x7d", Json.obj [("pubkey", Json.str "0xABC")]⟩]
        ⟨["0xabc"], fun _ => ""⟩).requests.filter isWrite =
      [importKeystoreReq "\x7b\"pubkey\": \"0xABC\"\x7d" "password"] := by
  decide

/-- C1 amended: in the import workflow a single file is skipped (no write
request) precisely when its `0x`-normalized pubkey — taken verbatim,
without lower-casing — occurs in the lower-cased managed set; a file pubkey
containing upper-case letters therefore never matches, even when a managed
entry differs from it only in case. -/
theorem import_skip_iff_verbatim_pubkey_managed (passwd : String)
    (f : KeystoreFile) (srv : Server) (h : (filePubkey? f).isSome = true) :
    (import_keystores passwd [f] srv).requests.filter isWrite = [] ↔
      normalizePubkey (extractedPubkey f) ∈ managedSet srv := by
  rcases Option.isSome_iff_exists.mp h with ⟨pk0, hpk⟩
  have hE : extractedPubkey f = pk0 := by simp [extractedPubkey, hpk]
  have hreq : (import_keystores passwd [f] srv).requests =
      getKeystoresReq :: (importLoop passwd (managedSet srv) [f]).1 := rfl
  rw [hreq, hE]
  by_cases hc : normalizePubkey pk0 ∈ managedSet srv <;>
    simp [importLoop, hpk, hc, isWrite, getKeystoresReq, importKeystoreReq]

/-- Witness for the amended theorem of C1: an all-lower-case file pubkey
matching a managed entry is skipped (both sides of the equivalence hold). -/
theorem import_skip_iff_verbatim_pubkey_managed_witness :
    (filePubkey? ⟨"tw", Json.obj [("pubkey", Json.str "0xee")]⟩).isSome = true ∧
    ((import_keystores "pw" [⟨"tw", Json.obj [("pubkey", Json.str "0xee")]⟩]
        ⟨["0xEE"], fun _ => ""⟩).requests.filter isWrite = [] ↔
      normalizePubkey (extractedPubkey ⟨"tw", Json.obj [("pubkey", Json.str "0xee")]⟩)
        ∈ managedSet ⟨["0xEE"], fun _ => ""⟩) :=
  ⟨by decide,
   import_skip_iff_verbatim_pubkey_managed "pw"
     ⟨"tw", Json.obj [("pubkey", Json.str "0xee")]⟩
     ⟨["0xEE"], fun _ => ""⟩ (by decide)⟩

/-! ### Claim theorems: request helper and configuration -/

/-- C7 counterexample: calling the helper with a supplied but empty body.
`urllib` picks POST (the data argument is not `None`), yet the header branch
and the return branch test Python truthiness (`if data:`), so the request
carries `accept: application/json` instead of the wildcard accept header with a
content type, and the response is parsed as JSON rather than returned raw —
contradicting the claim's "when a body is supplied" arm. -/
theorem request_helper_empty_body_counterexample :
    (buildRequest "http://localhost:5052" "token" "/eth/v1/keystores"
        (some "")).method = "POST" ∧
    ("accept", "*/*") ∉ (buildRequest "http://localhost:5052" "token"
        "/eth/v1/keystores" (some "")).headers ∧
    ("content-type", "application/json") ∉ (buildRequest "http://localhost:5052"
        "token" "/eth/v1/keystores" (some "")).headers ∧
    requestReturn (some "") "response" = RequestResult.parsedJson "response" := by
  decide

/-- C7 amended: the bearer authorization header is always present; the
method is POST exactly when a body argument is supplied (even an empty
one); the claim's POST arm (the wildcard accept header and
`content-type: application/json`, raw text returned) holds for every
non-empty body; and for no body or an empty body the accept header is
`application/json`, the response is parsed as JSON, and with no body the
method is GET. -/
theorem request_helper_headers_method_return (host auth resource : String)
    (data : Option String) (content : String) :
    ("authorization", "Bearer " ++ auth)
      ∈ (buildRequest host auth resource data).headers ∧
    (buildRequest host auth resource data).url = host ++ resource ∧
    ((buildRequest host auth resource data).method = "POST" ↔ data ≠ none) ∧
    (∀ b : String, data = some b → b ≠ "" →
      ("accept", "*/*") ∈ (buildRequest host auth resource data).headers ∧
      ("content-type", "application/json")
        ∈ (buildRequest host auth resource data).headers ∧
      requestReturn data content = RequestResult.rawText content) ∧
    ((data = none ∨ data = some "") →
      ("accept", "application/json") ∈ (buildRequest host auth resource data).headers ∧
      requestReturn data content = RequestResult.parsedJson content) ∧
    (data = none → (buildRequest host auth resource data).method = "GET") := by
  cases data with
  | none => simp [buildRequest, requestReturn, bodyTruthy]
  | some b =>
      by_cases hb : b = ""
      · subst hb
        simp [buildRequest, requestReturn, bodyTruthy]
      · simp [buildRequest, requestReturn, bodyTruthy, hb]

/-- Witness for the amended theorem of C7 at a concrete non-empty body. -/
theorem request_helper_headers_method_return_witness :
    ("authorization", "Bearer " ++ "token")
      ∈ (buildRequest "http://h" "token" "/r" (some "x")).headers ∧
    (buildRequest "http://h" "token" "/r" (some "x")).url = "http://h" ++ "/r" ∧
    ((buildRequest "http://h" "token" "/r" (some "x")).method = "POST" ↔
      (some "x" : Option String) ≠ none) ∧
    (∀ b : String, (some "x" : Option String) = some b → b ≠ "" →
      ("accept", "*/*") ∈ (buildRequest "http://h" "token" "/r" (some "x")).headers ∧
      ("content-type", "application/json")
        ∈ (buildRequest "http://h" "token" "/r" (some "x")).headers ∧
      requestReturn (some "x") "c" = RequestResult.rawText "c") ∧
    (((some "x" : Option String) = none ∨ (some "x" : Option String) = some "") →
      ("accept", "application/json")
        ∈ (buildRequest "http://h" "token" "/r" (some "x")).headers ∧
      requestReturn (some "x") "c" = RequestResult.parsedJson "c") ∧
    ((some "x" : Option String) = none →
      (buildRequest "http://h" "token" "/r" (some "x")).method = "GET") :=
  request_helper_headers_method_return "http://h" "token" "/r" (some "x") "c"

/-- C8: when the host or the auth token is configured neither on the
command line nor through its environment variable, the program reports the
usage error on stderr and exits with a non-zero code (argparse's 2) without
dispatching the subcommand and without issuing a single request. -/
theorem missing_config_usage_error_before_network
    (cliHost envHost cliAuth envAuth : Option String) (cmd : Command) (srv : Server)
    (h : (cliHost = none ∧ envHost = none) ∨ (cliAuth = none ∧ envAuth = none)) :
    mainEntry cliHost envHost cliAuth envAuth cmd srv = usageErrorResult ∧
    (mainEntry cliHost envHost cliAuth envAuth cmd srv).requests = [] ∧
    (mainEntry cliHost envHost cliAuth envAuth cmd srv).exitCode ≠ 0 ∧
    (mainEntry cliHost envHost cliAuth envAuth cmd srv).stderr ≠ [] := by
  have hmain : mainEntry cliHost envHost cliAuth envAuth cmd srv = usageErrorResult := by
    rcases h with ⟨h1, h2⟩ | ⟨h1, h2⟩ <;> subst h1 <;> subst h2 <;>
      simp [mainEntry, effectiveArg, truthyOpt]
  refine ⟨hmain, ?_, ?_, ?_⟩ <;> rw [hmain] <;> simp [usageErrorResult]

/-- Witness for the theorem of C8: no `--host` flag and no host environment
variable, with the auth token present. -/
theorem missing_config_usage_error_before_network_witness :
    (((none : Option String) = none ∧ (none : Option String) = none) ∨
      ((some "token" : Option String) = none ∧ (none : Option String) = none)) ∧
    (mainEntry none none (some "token") none
        (Command.setFeeRecipientsCmd []) ⟨[], fun _ => ""⟩ = usageErrorResult ∧
      (mainEntry none none (some "token") none
        (Command.setFeeRecipientsCmd []) ⟨[], fun _ => ""⟩).requests = [] ∧
      (mainEntry none none (some "token") none
        (Command.setFeeRecipientsCmd []) ⟨[], fun _ => ""⟩).exitCode ≠ 0 ∧
      (mainEntry none none (some "token") none
        (Command.setFeeRecipientsCmd []) ⟨[], fun _ => ""⟩).stderr ≠ []) :=
  ⟨Or.inl ⟨rfl, rfl⟩,
   missing_config_usage_error_before_network none none (some "token") none
     (Command.setFeeRecipientsCmd []) ⟨[], fun _ => ""⟩ (Or.inl ⟨rfl, rfl⟩)⟩
